import Mathlib

/-!
Verification development for the county-mask-generator pipeline
(`county_mask_generator/mask_generator.py` and `utils.py`).

The Python code is shallowly embedded as follows.

The `CountyMaskGenerator` object is a record `GenState` of its instance
attributes; the attributes `grid_points` and `grid_with_counties`, which the
code creates by assignment inside methods, are `Option`-valued fields that
start as `none` (reading them when `none` models Python's `AttributeError`).

Coordinates are exact rationals (the code's float arithmetic on linspace
values and `1.0 / count` weights, read exactly).  Region identifier values
(FIPS codes, stored by the code into a float NumPy array) are integers, and
`none` in an `Option Ident` position models a pandas/NumPy `NaN`.

County geometry is opaque to the mask logic: a county carries its attribute
columns, a Boolean point-containment test standing for its polygon
(`shapely`'s `within` predicate applied by `gpd.sjoin`), and its bounding
box.  `to_crs("EPSG:4326")` is the identity on this model, since the model's
geometries are already given in lat/lon.

Fallible Python calls return `Except PyErr`; side-effecting `print` calls
are ignored.
-/

namespace CMG

/-- Region identifier values such as FIPS codes. -/
abbrev Ident := Int

/-- Python exceptions raised by the modelled code paths. -/
inductive PyErr
  | keyError (column : String)
  | attributeError (attr : String)
  | valueError (msg : String)
  deriving DecidableEq

/-- Discriminator: the modelled Python call returned normally. -/
def isOkE {α : Type} : Except PyErr α → Bool
  | .ok _ => true
  | .error _ => false

/-- One county row of the shapefile GeoDataFrame: its attribute columns
(column name paired with value, where `none` is NaN), its geometry modelled
by a point-containment test taking (lon, lat), and its bounding box
(minLon, minLat, maxLon, maxLat). -/
structure County where
  attrs : List (String × Option Ident)
  inside : ℚ → ℚ → Bool
  bbox : ℚ × ℚ × ℚ × ℚ

/-- The loaded shapefile: its column schema and its county rows. -/
structure Shapefile where
  columns : List String
  counties : List County

/-- Column lookup in a row's attribute list (first match). -/
def lookupAttr (c : String) : List (String × Option Ident) → Option (Option Ident)
  | [] => none
  | (k, v) :: rest => if k = c then some v else lookupAttr c rest

/-- Model of `utils.validate_shapefile`: the file is readable (in-memory
data always is) and every required column is present. -/
def validate_shapefile (shp : Shapefile) (required : List String) : Bool :=
  required.all (fun c => shp.columns.contains c)

/-- One row of the spatially joined DataFrame (`gpd.sjoin` output): the grid
point's coordinates plus the matched county's attribute columns (all-NaN
columns when no county contains the point). -/
structure DFRow where
  lat : ℚ
  lon : ℚ
  attrs : List (String × Option Ident)
  deriving DecidableEq

/-- Instance state of a `CountyMaskGenerator` object. -/
structure GenState where
  county_identifier : String
  columns : List String
  counties : List County
  grid_points : Option (List (ℚ × ℚ))
  grid_with_counties : Option (List DFRow)

/-- Model of `CountyMaskGenerator.__init__` (lines 10–26): validate that the
configured identifier column exists, raise `ValueError` otherwise, then load
the counties.  No other check is performed. -/
def initGen (shp : Shapefile) (county_identifier : String) : Except PyErr GenState :=
  if validate_shapefile shp [county_identifier] then
    .ok { county_identifier := county_identifier
          columns := shp.columns
          counties := shp.counties
          grid_points := none
          grid_with_counties := none }
  else
    .error (.valueError "Shapefile validation failed.")

/-- Value number `i` of `np.linspace a b n`: `a + (b - a) * i / (n - 1)`.
For `n = 1` the division is by zero and Lean's convention `x / 0 = 0` gives
the value `a`, exactly NumPy's single-sample behaviour `[a]`. -/
def linVal (a b : ℚ) (n i : ℕ) : ℚ := a + (b - a) * i / ((n : ℚ) - 1)

/-- The list of values of `np.linspace a b n` (endpoint=True, exact
arithmetic). -/
def linspaceVals (a b : ℚ) (n : ℕ) : List ℚ := (List.range n).map (linVal a b n)

/-- Model of `np.linspace` with an `int` sample count: NumPy raises
`ValueError` on a negative count and otherwise returns the evenly spaced
samples, both endpoints included when the count is at least 2. -/
def npLinspace (a b : ℚ) (num : Int) : Except PyErr (List ℚ) :=
  if num < 0 then .error (.valueError "Number of samples must be non-negative")
  else .ok (linspaceVals a b num.toNat)

/-- Model of `np.meshgrid(lon, lat)` followed by `.ravel()` into the
`grid_points` DataFrame (lines 66–70): row-major (lon, lat) pairs — for each
latitude value, all longitude values. -/
def gridPoints : List ℚ → List ℚ → List (ℚ × ℚ)
  | [], _ => []
  | la :: rest, lons => lons.map (fun lo => (lo, la)) ++ gridPoints rest lons

/-- Model of `GeoDataFrame.total_bounds`: (minLon, minLat, maxLon, maxLat)
over all county bounding boxes.  The NumPy behaviour on an empty frame
(NaN bounds) is outside the modelled claims; the empty case returns zeros. -/
def totalBounds : List County → ℚ × ℚ × ℚ × ℚ
  | [] => (0, 0, 0, 0)
  | [c] => c.bbox
  | c :: rest =>
    let r := totalBounds rest
    (min c.bbox.1 r.1, min c.bbox.2.1 r.2.1,
     max c.bbox.2.2.1 r.2.2.1, max c.bbox.2.2.2 r.2.2.2)

/-- Assemble the grid from the two linspace results, propagating the first
raised exception (the latitude linspace is evaluated first in the code). -/
def assembleGrid (st : GenState) (elat elon : Except PyErr (List ℚ)) :
    Except PyErr (GenState × List (ℚ × ℚ)) :=
  match elat, elon with
  | .ok latv, .ok lonv =>
    let gps := gridPoints latv lonv
    .ok ({ st with grid_points := some gps }, gps)
  | .error e, _ => .error e
  | _, .error e => .error e

/-- Model of `generate_grid_points` (lines 35–72): default the ranges from
the shapefile bounds and the step counts to 100, build both linspaces, take
their row-major product, and store it in the `grid_points` attribute. -/
def generate_grid_points (st : GenState) (lat_range lon_range : Option (ℚ × ℚ))
    (lat_steps lon_steps : Option Int) : Except PyErr (GenState × List (ℚ × ℚ)) :=
  let bounds := totalBounds st.counties
  let latr := lat_range.getD (bounds.2.1, bounds.2.2.2)
  let lonr := lon_range.getD (bounds.1, bounds.2.2.1)
  let latS := lat_steps.getD 100
  let lonS := lon_steps.getD 100
  assembleGrid st (npLinspace latr.1 latr.2 latS) (npLinspace lonr.1 lonr.2 lonS)

/-- Model of `gpd.sjoin(grid_points_gdf, counties, how="left",
predicate="within")`: for each grid point in order, one output row per
containing county (in catalog order), or a single all-NaN row when no
county contains it. -/
def sjoinRows (cols : List String) (cs : List County) : List (ℚ × ℚ) → List DFRow
  | [] => []
  | p :: ps =>
    (match cs.filter (fun c => c.inside p.1 p.2) with
     | [] => [{ lat := p.2, lon := p.1, attrs := cols.map (fun c => (c, none)) }]
     | hits => hits.map (fun c => { lat := p.2, lon := p.1, attrs := c.attrs }))
      ++ sjoinRows cols cs ps

/-- Model of `assign_grid_to_county` (lines 74–89): read the stored
`grid_points` attribute (AttributeError when never set), spatially join, and
store the result in the `grid_with_counties` attribute. -/
def assign_grid_to_county (st : GenState) : Except PyErr (GenState × List DFRow) :=
  match st.grid_points with
  | none => .error (.attributeError "grid_points")
  | some gps =>
    let joined := sjoinRows st.columns st.counties gps
    .ok ({ st with grid_with_counties := some joined }, joined)

/-- First index of `x` in a list: `np.where(arr == x)[0][0]` (line 122). -/
def idxOf (x : ℚ) : List ℚ → ℕ
  | [] => 0
  | y :: ys => if y = x then 0 else idxOf x ys + 1

/-- Helper for `uniqueA`: keep the first occurrence of each value not
already seen. -/
def uniqueAux (seen : List ℚ) : List ℚ → List ℚ
  | [] => []
  | x :: xs => if x ∈ seen then uniqueAux seen xs else x :: uniqueAux (x :: seen) xs

/-- Model of `pandas.Series.unique`: the distinct values in order of first
appearance. -/
def uniqueA (l : List ℚ) : List ℚ := uniqueAux [] l

/-- Model of `np.sort` on the coordinate axes (lines 144–145). -/
def sortQ (l : List ℚ) : List ℚ := l.insertionSort (· ≤ ·)

/-- One assignment row after extracting the region-identifier column from
the joined DataFrame: coordinates and the (possibly NaN) identifier. -/
structure ARow where
  lat : ℚ
  lon : ℚ
  fips : Option Ident
  deriving DecidableEq

/-- Value of `value_counts()` of the extracted column at one identifier: how
many rows carry `some v` (`value_counts` does not count NaN). -/
def countFips (rows : List ARow) (v : Ident) : ℕ :=
  (rows.filter (fun r => decide (r.fips = some v))).length

/-- Model of `value_counts().to_dict()` (line 100): an identifier is a key
exactly when its count is positive. -/
def countsOf (rows : List ARow) : Ident → Option ℕ :=
  fun v => if countFips rows v = 0 then none else some (countFips rows v)

/-- The two NumPy arrays filled by the loop, as index functions; cells never
written keep the fill values `np.nan` and `0` (lines 107, 110). -/
structure MaskArrays where
  fipsA : ℕ → ℕ → Option Ident
  weightsA : ℕ → ℕ → ℚ

/-- Pointwise 2-D array write `arr[i, j] = v`. -/
def update2 {α : Type} (f : ℕ → ℕ → α) (i j : ℕ) (v : α) : ℕ → ℕ → α :=
  fun i2 j2 => if i2 = i ∧ j2 = j then v else f i2 j2

/-- Weight computed at lines 126–129: `1.0 / fips_counts[fips]` when the
identifier is a key of the counts dict, else the defensive `0.0`. -/
def weightOf (counts : Ident → Option ℕ) (v : Ident) : ℚ :=
  match counts v with
  | some n => 1 / (n : ℚ)
  | none => 0

/-- Loop body, lines 113–135: skip a NaN identifier; otherwise locate the
cell by first-match index into the appearance-order unique axes and write
the weight and the identifier there. -/
def applyRow (counts : Ident → Option ℕ) (uLats uLons : List ℚ)
    (m : MaskArrays) (r : ARow) : MaskArrays :=
  match r.fips with
  | none => m
  | some v =>
    { fipsA := update2 m.fipsA (idxOf r.lat uLats) (idxOf r.lon uLons) (some v)
      weightsA := update2 m.weightsA (idxOf r.lat uLats) (idxOf r.lon uLons)
        (weightOf counts v) }

/-- The whole `for` loop over the joined rows (lines 113–135), starting from
the `np.full(nan)` and `np.zeros` arrays. -/
def buildArrays (counts : Ident → Option ℕ) (uLats uLons : List ℚ)
    (rows : List ARow) : MaskArrays :=
  rows.foldl (applyRow counts uLats uLons) ⟨fun _ _ => none, fun _ _ => 0⟩

/-- The returned `xr.Dataset` (lines 138–147): sorted unique coordinate
axes, and the two data layers exactly as the loop left them. -/
structure Mask where
  latAxis : List ℚ
  lonAxis : List ℚ
  fipsA : ℕ → ℕ → Option Ident
  weightsA : ℕ → ℕ → ℚ

/-- Appearance-order unique latitudes of the table
(`grid_with_counties['lat'].unique()`, lines 103 and 122). -/
def uLatsOf (rows : List ARow) : List ℚ := uniqueA (rows.map (·.lat))

/-- Appearance-order unique longitudes of the table. -/
def uLonsOf (rows : List ARow) : List ℚ := uniqueA (rows.map (·.lon))

/-- Lines 99–147 of `create_weight_mask`, after the FIPS column has been
extracted: count identifiers over the whole table, fill the arrays indexed
by the appearance-order unique axes, and emit the Dataset whose coordinates
are the sorted unique axes. -/
def buildMask (rows : List ARow) : Mask :=
  { latAxis := sortQ (uLatsOf rows), lonAxis := sortQ (uLonsOf rows)
    fipsA := (buildArrays (countsOf rows) (uLatsOf rows) (uLonsOf rows) rows).fipsA
    weightsA :=
      (buildArrays (countsOf rows) (uLatsOf rows) (uLonsOf rows) rows).weightsA }

/-- Array row index the loop computes for a table row (line 122). -/
def latIdx (rows : List ARow) (r : ARow) : ℕ := idxOf r.lat (uLatsOf rows)

/-- Array column index the loop computes for a table row (line 123). -/
def lonIdx (rows : List ARow) (r : ARow) : ℕ := idxOf r.lon (uLonsOf rows)

/-- DataFrame column access `df[c]` paired with each row's coordinates:
`KeyError` when the column is absent. -/
def getColumn (dfr : List DFRow) (c : String) : Except PyErr (List ARow) :=
  dfr.mapM (fun r =>
    match lookupAttr c r.attrs with
    | some v => .ok { lat := r.lat, lon := r.lon, fips := v }
    | none => .error (.keyError c))

/-- Model of `create_weight_mask` (lines 91–149): read the stored
`grid_with_counties` attribute (AttributeError when never set), extract the
column named by the literal string "FIPS" — not by the configured
`county_identifier` — and assemble the Dataset. -/
def create_weight_mask (st : GenState) : Except PyErr Mask :=
  match st.grid_with_counties with
  | none => .error (.attributeError "grid_with_counties")
  | some dfr => (getColumn dfr "FIPS").map buildMask

/-- One method call on the generator object (arguments of
`generate_grid_points` included). -/
inductive Call
  | gen (lat_range lon_range : Option (ℚ × ℚ)) (lat_steps lon_steps : Option Int)
  | assign
  | create
  deriving DecidableEq

/-- Whether a call is an invocation of `generate_grid_points`. -/
def isGenCall : Call → Bool
  | .gen _ _ _ _ => true
  | _ => false

/-- Effect of one method call on the stored instance attributes (a raised
exception propagates to the caller and leaves the attributes unchanged). -/
def callStep (st : GenState) : Call → GenState
  | .gen lr lor ls los =>
    match generate_grid_points st lr lor ls los with
    | .ok (st2, _) => st2
    | .error _ => st
  | .assign =>
    match assign_grid_to_county st with
    | .ok (st2, _) => st2
    | .error _ => st
  | .create => st

/-- Run a sequence of method calls on an instance. -/
def runCalls (st : GenState) (cs : List Call) : GenState := cs.foldl callStep st

/-- Sum of the weight layer over all mask cells whose region layer holds the
identifier `v`. -/
def regionSum (m : Mask) (v : Ident) : ℚ :=
  ∑ i ∈ Finset.range m.latAxis.length, ∑ j ∈ Finset.range m.lonAxis.length,
    if m.fipsA i j = some v then m.weightsA i j else 0

/-- The row writes the array cell (i, j): it has a non-NaN identifier and
its coordinates locate to that cell. -/
def writesAt (uLats uLons : List ℚ) (i j : ℕ) (r : ARow) : Bool :=
  r.fips.isSome && decide (idxOf r.lat uLats = i) && decide (idxOf r.lon uLons = j)

theorem idxOf_lt_length {x : ℚ} : ∀ {l : List ℚ}, x ∈ l → idxOf x l < l.length := by
  intro l hx
  induction l with
  | nil => cases hx
  | cons y ys ih =>
    rw [idxOf]
    by_cases hyx : y = x
    · simp [hyx]
    · rcases List.mem_cons.mp hx with h | h
      · exact absurd h.symm hyx
      · simpa [hyx] using ih h

theorem idxOf_inj {x y : ℚ} : ∀ {l : List ℚ}, x ∈ l → y ∈ l →
    idxOf x l = idxOf y l → x = y := by
  intro l hx hy h
  induction l with
  | nil => cases hx
  | cons z zs ih =>
    rw [idxOf, idxOf] at h
    by_cases hzx : z = x <;> by_cases hzy : z = y
    · exact hzx ▸ hzy
    · rw [if_pos hzx, if_neg hzy] at h
      exact absurd h (by omega)
    · rw [if_neg hzx, if_pos hzy] at h
      exact absurd h (by omega)
    · rw [if_neg hzx, if_neg hzy, Nat.add_right_cancel_iff] at h
      rcases List.mem_cons.mp hx with h1 | h1
      · exact absurd h1.symm hzx
      rcases List.mem_cons.mp hy with h2 | h2
      · exact absurd h2.symm hzy
      exact ih h1 h2 h

theorem mem_uniqueAux : ∀ (l seen : List ℚ) (x : ℚ),
    x ∈ uniqueAux seen l ↔ x ∈ l ∧ x ∉ seen := by
  intro l
  induction l with
  | nil => simp [uniqueAux]
  | cons y ys ih =>
    intro seen x
    rw [uniqueAux]
    by_cases hy : y ∈ seen
    · rw [if_pos hy, ih]
      constructor
      · rintro ⟨h1, h2⟩
        exact ⟨List.mem_cons_of_mem _ h1, h2⟩
      · rintro ⟨h1, h2⟩
        rcases List.mem_cons.mp h1 with rfl | h1
        · exact absurd hy h2
        · exact ⟨h1, h2⟩
    · rw [if_neg hy]
      constructor
      · intro hmem
        rcases List.mem_cons.mp hmem with rfl | hmem
        · exact ⟨List.mem_cons_self _ _, hy⟩
        · rw [ih] at hmem
          exact ⟨List.mem_cons_of_mem _ hmem.1,
            fun hseen => hmem.2 (List.mem_cons_of_mem _ hseen)⟩
      · rintro ⟨h1, h2⟩
        by_cases hxy : x = y
        · subst hxy
          exact List.mem_cons_self _ _
        · rcases List.mem_cons.mp h1 with h | h
          · exact absurd h hxy
          · refine List.mem_cons_of_mem _ ?_
            rw [ih]
            refine ⟨h, fun hc => ?_⟩
            rcases List.mem_cons.mp hc with h3 | h3
            · exact hxy h3
            · exact h2 h3

theorem mem_uniqueA (l : List ℚ) (x : ℚ) : x ∈ uniqueA l ↔ x ∈ l := by
  rw [uniqueA, mem_uniqueAux]
  simp

theorem length_sortQ (l : List ℚ) : (sortQ l).length = l.length :=
  List.length_insertionSort _ l

theorem linVal_zero (a b : ℚ) (n : ℕ) : linVal a b n 0 = a := by
  simp [linVal]

theorem linVal_last (a b : ℚ) {n : ℕ} (hn : 2 ≤ n) : linVal a b n (n - 1) = b := by
  have h1 : (1 : ℕ) ≤ n := le_trans (by norm_num) hn
  have hcast : ((n - 1 : ℕ) : ℚ) = (n : ℚ) - 1 := by
    push_cast [h1]; ring
  have hne : ((n : ℚ) - 1) ≠ 0 := by
    have : (2 : ℚ) ≤ (n : ℚ) := by exact_mod_cast hn
    intro h
    have : (n : ℚ) = 1 := by linarith
    linarith
  rw [linVal, hcast, mul_div_assoc, div_self hne]
  ring

theorem linVal_strictMono (a b : ℚ) {n : ℕ} (hn : 2 ≤ n) (hab : a < b)
    {i j : ℕ} (hij : i < j) : linVal a b n i < linVal a b n j := by
  have hpos : (0 : ℚ) < (n : ℚ) - 1 := by
    have : (2 : ℚ) ≤ (n : ℚ) := by exact_mod_cast hn
    linarith
  have hba : (0 : ℚ) < b - a := by linarith
  have hij' : (i : ℚ) < (j : ℚ) := by exact_mod_cast hij
  rw [linVal, linVal]
  have : (b - a) * (i : ℚ) / ((n : ℚ) - 1) < (b - a) * (j : ℚ) / ((n : ℚ) - 1) := by
    apply div_lt_div_of_pos_right _ hpos
    exact mul_lt_mul_of_pos_left hij' hba
  linarith

theorem length_linspaceVals (a b : ℚ) (n : ℕ) : (linspaceVals a b n).length = n := by
  simp [linspaceVals]

theorem getElem_linspaceVals (a b : ℚ) (n i : ℕ) (hi : i < n) :
    (linspaceVals a b n)[i]? = some (linVal a b n i) := by
  simp [linspaceVals, List.getElem?_map, List.getElem?_range, hi]

theorem mem_linspaceVals_a (a b : ℚ) {n : ℕ} (hn : 1 ≤ n) : a ∈ linspaceVals a b n := by
  have : linVal a b n 0 ∈ linspaceVals a b n := by
    apply List.mem_map_of_mem
    simpa using hn
  simpa [linVal_zero] using this

theorem mem_linspaceVals_b (a b : ℚ) {n : ℕ} (hn : 2 ≤ n) : b ∈ linspaceVals a b n := by
  have hlt : n - 1 < n := by omega
  have : linVal a b n (n - 1) ∈ linspaceVals a b n := by
    apply List.mem_map_of_mem
    simpa using hlt
  rwa [linVal_last a b hn] at this

/-- Weight the loop writes for a row (zero for the never-written NaN case). -/
def rowWeight (counts : Ident → Option ℕ) (r : ARow) : ℚ :=
  match r.fips with
  | some v => weightOf counts v
  | none => 0

/-- Two rows locate to different array cells. -/
def keyNe (uLats uLons : List ℚ) (a b : ARow) : Prop :=
  idxOf a.lat uLats ≠ idxOf b.lat uLats ∨ idxOf a.lon uLons ≠ idxOf b.lon uLons

/-- The rows form an assignment table: one row per grid point, so no two
rows share a (lat, lon) pair. -/
def distinctLL (rows : List ARow) : Prop :=
  rows.Pairwise (fun a b => (a.lat, a.lon) ≠ (b.lat, b.lon))

theorem applyRow_no_write (counts : Ident → Option ℕ) {uLats uLons : List ℚ}
    {i j : ℕ} {r : ARow} (hw : writesAt uLats uLons i j r = false) (m : MaskArrays) :
    (applyRow counts uLats uLons m r).fipsA i j = m.fipsA i j ∧
      (applyRow counts uLats uLons m r).weightsA i j = m.weightsA i j := by
  rcases hr : r.fips with _ | v
  · simp [applyRow, hr]
  · have hneq : ¬(i = idxOf r.lat uLats ∧ j = idxOf r.lon uLons) := by
      rintro ⟨h1, h2⟩
      rw [writesAt, hr] at hw
      simp [h1, h2] at hw
    simp [applyRow, hr, update2, hneq]

theorem applyRow_write (counts : Ident → Option ℕ) {uLats uLons : List ℚ}
    {i j : ℕ} {r : ARow} (hw : writesAt uLats uLons i j r = true) (m : MaskArrays) :
    (applyRow counts uLats uLons m r).fipsA i j = r.fips ∧
      (applyRow counts uLats uLons m r).weightsA i j = rowWeight counts r := by
  rcases hr : r.fips with _ | v
  · rw [writesAt, hr] at hw
    simp at hw
  · rw [writesAt, hr] at hw
    simp only [Option.isSome_some, Bool.true_and, Bool.and_eq_true,
      decide_eq_true_eq] at hw
    simp [applyRow, hr, update2, hw.1.symm, hw.2.symm, rowWeight]

theorem foldl_no_write (counts : Ident → Option ℕ) {uLats uLons : List ℚ}
    {i j : ℕ} : ∀ {rows : List ARow},
    (∀ r ∈ rows, writesAt uLats uLons i j r = false) → ∀ (m : MaskArrays),
    ((rows.foldl (applyRow counts uLats uLons) m).fipsA i j = m.fipsA i j ∧
      (rows.foldl (applyRow counts uLats uLons) m).weightsA i j = m.weightsA i j) := by
  intro rows hall m
  induction rows generalizing m with
  | nil => exact ⟨rfl, rfl⟩
  | cons r rest ih =>
    have hstep := applyRow_no_write counts
      (hall r (List.mem_cons_self r rest)) m
    have hrest := ih (fun r' hr' => hall r' (List.mem_cons_of_mem r hr'))
      (applyRow counts uLats uLons m r)
    exact ⟨hrest.1.trans hstep.1, hrest.2.trans hstep.2⟩

theorem foldl_cell (counts : Ident → Option ℕ) {uLats uLons : List ℚ} :
    ∀ {rows : List ARow}, rows.Pairwise (keyNe uLats uLons) →
    ∀ (m : MaskArrays) (i j : ℕ),
    ((rows.foldl (applyRow counts uLats uLons) m).fipsA i j =
      (match rows.find? (writesAt uLats uLons i j) with
       | some r => r.fips
       | none => m.fipsA i j)) ∧
    ((rows.foldl (applyRow counts uLats uLons) m).weightsA i j =
      (match rows.find? (writesAt uLats uLons i j) with
       | some r => rowWeight counts r
       | none => m.weightsA i j)) := by
  intro rows hk m i j
  induction rows generalizing m with
  | nil => exact ⟨rfl, rfl⟩
  | cons r rest ih =>
    rcases List.pairwise_cons.mp hk with ⟨hhead, htail⟩
    cases hw : writesAt uLats uLons i j r with
    | true =>
      rw [List.find?_cons_of_pos _ hw]
      have hrest : ∀ r' ∈ rest, writesAt uLats uLons i j r' = false := by
        intro r' hr'
        by_contra hcon
        rw [Bool.not_eq_false] at hcon
        rw [writesAt, Bool.and_eq_true, Bool.and_eq_true] at hw hcon
        rcases hhead r' hr' with hne | hne
        · exact hne ((decide_eq_true_eq.mp hw.1.2).trans
            (decide_eq_true_eq.mp hcon.1.2).symm)
        · exact hne ((decide_eq_true_eq.mp hw.2).trans
            (decide_eq_true_eq.mp hcon.2).symm)
      have hfold := foldl_no_write counts hrest
        (applyRow counts uLats uLons m r)
      have hstep := applyRow_write counts hw m
      exact ⟨hfold.1.trans hstep.1, hfold.2.trans hstep.2⟩
    | false =>
      rw [List.find?_cons_of_neg _ (by simp [hw])]
      have hstep := applyRow_no_write counts hw m
      have := ih htail (applyRow counts uLats uLons m r)
      refine ⟨this.1.trans ?_, this.2.trans ?_⟩ <;>
        cases hfind : rest.find? (writesAt uLats uLons i j) <;>
          simp [hfind, hstep.1, hstep.2]

theorem find?_writer {uLats uLons : List ℚ} :
    ∀ {rows : List ARow}, rows.Pairwise (keyNe uLats uLons) →
    ∀ {r : ARow}, r ∈ rows → r.fips.isSome = true →
    rows.find? (writesAt uLats uLons (idxOf r.lat uLats) (idxOf r.lon uLons)) =
      some r := by
  intro rows hk r hr hsome
  induction rows with
  | nil => cases hr
  | cons r0 rest ih =>
    rcases List.pairwise_cons.mp hk with ⟨hhead, htail⟩
    by_cases h0 : r0 = r
    · subst h0
      rw [List.find?_cons_of_pos _ (by simp [writesAt, hsome])]
    · have hmem : r ∈ rest := by
        rcases List.mem_cons.mp hr with h | h
        · exact absurd h.symm h0
        · exact h
      have hnw : writesAt uLats uLons (idxOf r.lat uLats) (idxOf r.lon uLons) r0
          = false := by
        by_contra hcon
        rw [Bool.not_eq_false, writesAt, Bool.and_eq_true, Bool.and_eq_true]
          at hcon
        rcases hhead r hmem with hne | hne
        · exact hne (decide_eq_true_eq.mp hcon.1.2)
        · exact hne (decide_eq_true_eq.mp hcon.2)
      rw [List.find?_cons_of_neg _ (by simp [hnw])]
      exact ih htail hmem

theorem pairwise_keyNe_of_distinct {uLats uLons : List ℚ} {rows : List ARow}
    (hlat : ∀ r ∈ rows, r.lat ∈ uLats) (hlon : ∀ r ∈ rows, r.lon ∈ uLons)
    (hd : distinctLL rows) : rows.Pairwise (keyNe uLats uLons) := by
  refine List.Pairwise.imp_of_mem ?_ hd
  intro a b ha hb hne
  by_contra hcon
  rw [keyNe, not_or, not_not, not_not] at hcon
  have h1 : a.lat = b.lat := idxOf_inj (hlat a ha) (hlat b hb) hcon.1
  have h2 : a.lon = b.lon := idxOf_inj (hlon a ha) (hlon b hb) hcon.2
  exact hne (by rw [h1, h2])

theorem keyNe_symm (uLats uLons : List ℚ) : Symmetric (keyNe uLats uLons) := by
  intro a b h
  rcases h with h | h
  · exact Or.inl h.symm
  · exact Or.inr h.symm

theorem mem_uLatsOf {rows : List ARow} {r : ARow} (hr : r ∈ rows) :
    r.lat ∈ uLatsOf rows :=
  (mem_uniqueA _ _).mpr (List.mem_map_of_mem _ hr)

theorem mem_uLonsOf {rows : List ARow} {r : ARow} (hr : r ∈ rows) :
    r.lon ∈ uLonsOf rows :=
  (mem_uniqueA _ _).mpr (List.mem_map_of_mem _ hr)

theorem pairwise_keyNe_rows {rows : List ARow} (hd : distinctLL rows) :
    rows.Pairwise (keyNe (uLatsOf rows) (uLonsOf rows)) :=
  pairwise_keyNe_of_distinct (fun _ hr => mem_uLatsOf hr)
    (fun _ hr => mem_uLonsOf hr) hd

theorem countFips_pos {rows : List ARow} {r : ARow} {v : Ident} (hr : r ∈ rows)
    (hv : r.fips = some v) : 0 < countFips rows v := by
  have : r ∈ rows.filter (fun r2 => decide (r2.fips = some v)) :=
    List.mem_filter.mpr ⟨hr, by simp [hv]⟩
  exact List.length_pos_of_mem this

theorem weightOf_countsOf {rows : List ARow} {v : Ident}
    (h : countFips rows v ≠ 0) :
    weightOf (countsOf rows) v = 1 / (countFips rows v : ℚ) := by
  have hc : countsOf rows v = some (countFips rows v) := by
    simp only [countsOf, if_neg h]
  simp only [weightOf, hc]

theorem rowWeight_eq {counts : Ident → Option ℕ} {r : ARow} {v : Ident}
    (h : r.fips = some v) : rowWeight counts r = weightOf counts v := by
  rw [rowWeight, h]

theorem buildMask_cell_some {rows : List ARow} {r : ARow} {v : Ident}
    (hd : distinctLL rows) (hr : r ∈ rows) (hv : r.fips = some v) :
    (buildMask rows).fipsA (latIdx rows r) (lonIdx rows r) = some v ∧
      (buildMask rows).weightsA (latIdx rows r) (lonIdx rows r) =
        1 / (countFips rows v : ℚ) := by
  have hk := pairwise_keyNe_rows hd
  have hfind : rows.find? (writesAt (uLatsOf rows) (uLonsOf rows)
      (latIdx rows r) (lonIdx rows r)) = some r :=
    find?_writer hk hr (by simp [hv])
  have hcell := foldl_cell (countsOf rows) hk
    ⟨fun _ _ => none, fun _ _ => 0⟩ (latIdx rows r) (lonIdx rows r)
  constructor
  · show (buildArrays (countsOf rows) (uLatsOf rows) (uLonsOf rows) rows).fipsA
      _ _ = some v
    rw [buildArrays, hcell.1, hfind]
    exact hv
  · show (buildArrays (countsOf rows) (uLatsOf rows) (uLonsOf rows) rows).weightsA
      _ _ = 1 / (countFips rows v : ℚ)
    rw [buildArrays, hcell.2, hfind]
    show rowWeight (countsOf rows) r = 1 / (countFips rows v : ℚ)
    rw [rowWeight_eq hv,
      weightOf_countsOf (Nat.pos_iff_ne_zero.mp (countFips_pos hr hv))]

theorem buildMask_cell_none {rows : List ARow} {r : ARow}
    (hd : distinctLL rows) (hr : r ∈ rows) (hv : r.fips = none) :
    (buildMask rows).fipsA (latIdx rows r) (lonIdx rows r) = none ∧
      (buildMask rows).weightsA (latIdx rows r) (lonIdx rows r) = 0 := by
  have hk := pairwise_keyNe_rows hd
  have hfind : rows.find?
      (writesAt (uLatsOf rows) (uLonsOf rows) (latIdx rows r) (lonIdx rows r))
      = none := by
    rw [List.find?_eq_none]
    intro r2 hr2 hcon
    rw [writesAt, Bool.and_eq_true, Bool.and_eq_true] at hcon
    by_cases h2 : r2 = r
    · rw [h2, hv] at hcon
      simp at hcon
    · have hne := (List.Pairwise.forall (keyNe_symm _ _) hk) hr2 hr h2
      rcases hne with hne | hne
      · exact hne (decide_eq_true_eq.mp hcon.1.2)
      · exact hne (decide_eq_true_eq.mp hcon.2)
  have hcell := foldl_cell (countsOf rows) hk
    ⟨fun _ _ => none, fun _ _ => 0⟩ (latIdx rows r) (lonIdx rows r)
  constructor
  · show (buildArrays (countsOf rows) (uLatsOf rows) (uLonsOf rows) rows).fipsA
      _ _ = none
    rw [buildArrays, hcell.1, hfind]
  · show (buildArrays (countsOf rows) (uLatsOf rows) (uLonsOf rows) rows).weightsA
      _ _ = 0
    rw [buildArrays, hcell.2, hfind]

theorem buildMask_cell_inv {rows : List ARow} {i j : ℕ} {v : Ident}
    (hd : distinctLL rows) (h : (buildMask rows).fipsA i j = some v) :
    ∃ r, r ∈ rows ∧ r.fips = some v ∧ latIdx rows r = i ∧ lonIdx rows r = j ∧
      (buildMask rows).weightsA i j = 1 / (countFips rows v : ℚ) := by
  have hk := pairwise_keyNe_rows hd
  have hcell := foldl_cell (countsOf rows) hk
    ⟨fun _ _ => none, fun _ _ => 0⟩ i j
  have hfips : (buildMask rows).fipsA i j =
      (match rows.find? (writesAt (uLatsOf rows) (uLonsOf rows) i j) with
       | some r => r.fips
       | none => none) := hcell.1
  cases hfind : rows.find? (writesAt (uLatsOf rows) (uLonsOf rows) i j) with
  | none =>
    rw [hfips, hfind] at h
    cases h
  | some r =>
    have hmem := List.mem_of_find?_eq_some hfind
    have hpred := List.find?_some hfind
    rw [writesAt, Bool.and_eq_true, Bool.and_eq_true] at hpred
    have hfv : r.fips = some v := by
      rw [hfips, hfind] at h
      exact h
    refine ⟨r, hmem, hfv, decide_eq_true_eq.mp hpred.1.2,
      decide_eq_true_eq.mp hpred.2, ?_⟩
    have : (buildMask rows).weightsA i j = rowWeight (countsOf rows) r := by
      show (buildArrays (countsOf rows) (uLatsOf rows) (uLonsOf rows) rows).weightsA
        _ _ = rowWeight (countsOf rows) r
      rw [buildArrays, hcell.2, hfind]
    rw [this, rowWeight_eq hfv,
      weightOf_countsOf (Nat.pos_iff_ne_zero.mp (countFips_pos hmem hfv))]

theorem assembleGrid_ok {st : GenState} {e1 e2 : Except PyErr (List ℚ)}
    {p : GenState × List (ℚ × ℚ)} (h : assembleGrid st e1 e2 = .ok p) :
    p.1 = { st with grid_points := some p.2 } := by
  cases e1 <;> cases e2 <;> simp [assembleGrid] at h
  rw [← h]

theorem generate_ok_shape {st : GenState} {lr lor : Option (ℚ × ℚ)}
    {ls los : Option Int} {p : GenState × List (ℚ × ℚ)}
    (h : generate_grid_points st lr lor ls los = .ok p) :
    p.1 = { st with grid_points := some p.2 } :=
  assembleGrid_ok h

theorem callStep_gp {st : GenState} {c : Call} (hc : isGenCall c = false) :
    (callStep st c).grid_points = st.grid_points := by
  cases c with
  | gen lr lor ls los => simp [isGenCall] at hc
  | assign =>
    show (match assign_grid_to_county st with
      | .ok (st2, _) => st2
      | .error _ => st).grid_points = st.grid_points
    cases hgp : st.grid_points <;> simp [assign_grid_to_county, hgp]
  | create => rfl

theorem callStep_gwc {st : GenState} {c : Call} (hc : c ≠ Call.assign) :
    (callStep st c).grid_with_counties = st.grid_with_counties := by
  cases c with
  | gen lr lor ls los =>
    show (match generate_grid_points st lr lor ls los with
      | .ok (st2, _) => st2
      | .error _ => st).grid_with_counties = st.grid_with_counties
    cases hg : generate_grid_points st lr lor ls los with
    | error e => rfl
    | ok p =>
      cases p with
      | mk st2 gps =>
        have h2 : st2 = { st with grid_points := some gps } :=
          generate_ok_shape hg
        show st2.grid_with_counties = st.grid_with_counties
        rw [h2]
  | assign => exact absurd rfl hc
  | create => rfl

theorem runCalls_gp {cs : List Call} {st : GenState}
    (h : ∀ c ∈ cs, isGenCall c = false) :
    (runCalls st cs).grid_points = st.grid_points := by
  induction cs generalizing st with
  | nil => rfl
  | cons c rest ih =>
    show (runCalls (callStep st c) rest).grid_points = st.grid_points
    rw [ih (fun c2 hc2 => h c2 (List.mem_cons_of_mem c hc2)),
      callStep_gp (h c (List.mem_cons_self c rest))]

theorem runCalls_gwc {cs : List Call} {st : GenState} (h : Call.assign ∉ cs) :
    (runCalls st cs).grid_with_counties = st.grid_with_counties := by
  induction cs generalizing st with
  | nil => rfl
  | cons c rest ih =>
    show (runCalls (callStep st c) rest).grid_with_counties =
      st.grid_with_counties
    rw [ih (fun hmem => h (List.mem_cons_of_mem c hmem)),
      callStep_gwc (fun he => h (he ▸ List.mem_cons_self c rest))]

theorem initGen_fresh {shp : Shapefile} {ident : String} {st0 : GenState}
    (h0 : initGen shp ident = .ok st0) :
    st0.grid_points = none ∧ st0.grid_with_counties = none := by
  unfold initGen at h0
  by_cases hv : validate_shapefile shp [ident] = true
  · rw [if_pos hv] at h0
    rw [← Except.ok.inj h0]
    exact ⟨rfl, rfl⟩
  · rw [if_neg hv] at h0
    cases h0

theorem nodup_of_distinct {rows : List ARow} (hd : distinctLL rows) :
    rows.Nodup := by
  refine hd.imp ?_
  intro a b h heq
  exact h (by rw [heq])

theorem distinct_pairs_of_mem {rows : List ARow} (hd : distinctLL rows) :
    ∀ a ∈ rows, ∀ b ∈ rows, a ≠ b → (a.lat, a.lon) ≠ (b.lat, b.lon) := by
  intro a ha b hb hne
  exact (List.Pairwise.forall (fun x y h => fun he => h he.symm) hd) ha hb hne

theorem regionSum_buildMask {rows : List ARow} {v : Ident} (hd : distinctLL rows)
    (hp : ∃ i j, (buildMask rows).fipsA i j = some v) :
    regionSum (buildMask rows) v = 1 := by
  classical
  obtain ⟨i0, j0, hcell0⟩ := hp
  obtain ⟨r0, hr0, hf0, -, -, -⟩ := buildMask_cell_inv hd hcell0
  have hn : countFips rows v ≠ 0 :=
    Nat.pos_iff_ne_zero.mp (countFips_pos hr0 hf0)
  set n := countFips rows v with hndef
  set S := rows.filter (fun r => decide (r.fips = some v)) with hSdef
  have hSnodup : S.Nodup := (nodup_of_distinct hd).filter _
  have hSlen : S.length = n := rfl
  set T := S.toFinset.image (fun r => (latIdx rows r, lonIdx rows r)) with hTdef
  have hinj : Set.InjOn (fun r => (latIdx rows r, lonIdx rows r))
      S.toFinset := by
    intro a ha b hb hab
    have hmema : a ∈ rows :=
      List.mem_of_mem_filter (List.mem_toFinset.mp ha)
    have hmemb : b ∈ rows :=
      List.mem_of_mem_filter (List.mem_toFinset.mp hb)
    by_contra hne
    have h1 : a.lat = b.lat :=
      idxOf_inj (mem_uLatsOf hmema) (mem_uLatsOf hmemb)
        (congrArg Prod.fst hab)
    have h2 : a.lon = b.lon :=
      idxOf_inj (mem_uLonsOf hmema) (mem_uLonsOf hmemb)
        (congrArg Prod.snd hab)
    exact distinct_pairs_of_mem hd a hmema b hmemb hne (by rw [h1, h2])
  have hTcard : T.card = n := by
    rw [hTdef, Finset.card_image_of_injOn hinj,
      List.toFinset_card_of_nodup hSnodup, hSlen]
  have hTsub : T ⊆ Finset.range (buildMask rows).latAxis.length ×ˢ
      Finset.range (buildMask rows).lonAxis.length := by
    intro p hp2
    rw [hTdef, Finset.mem_image] at hp2
    obtain ⟨r, hrT, hrp⟩ := hp2
    have hmem : r ∈ rows := List.mem_of_mem_filter (List.mem_toFinset.mp hrT)
    rw [Finset.mem_product, ← hrp]
    refine ⟨Finset.mem_range.mpr ?_, Finset.mem_range.mpr ?_⟩
    · show latIdx rows r < (buildMask rows).latAxis.length
      rw [show (buildMask rows).latAxis = sortQ (uLatsOf rows) from rfl,
        length_sortQ]
      exact idxOf_lt_length (mem_uLatsOf hmem)
    · show lonIdx rows r < (buildMask rows).lonAxis.length
      rw [show (buildMask rows).lonAxis = sortQ (uLonsOf rows) from rfl,
        length_sortQ]
      exact idxOf_lt_length (mem_uLonsOf hmem)
  have hpt : ∀ p ∈ Finset.range (buildMask rows).latAxis.length ×ˢ
      Finset.range (buildMask rows).lonAxis.length,
      (if (buildMask rows).fipsA p.1 p.2 = some v
        then (buildMask rows).weightsA p.1 p.2 else 0)
        = if p ∈ T then (1 / (n : ℚ)) else 0 := by
    intro p _
    by_cases hmem : p ∈ T
    · rw [if_pos hmem]
      rw [hTdef, Finset.mem_image] at hmem
      obtain ⟨r, hrT, hrp⟩ := hmem
      have hrS := List.mem_toFinset.mp hrT
      have hrrows : r ∈ rows := List.mem_of_mem_filter hrS
      have hrS2 : r ∈ rows.filter (fun r2 => decide (r2.fips = some v)) :=
        hSdef ▸ hrS
      have hrf : r.fips = some v :=
        decide_eq_true_eq.mp (List.mem_filter.mp hrS2).2
      have hcs := buildMask_cell_some hd hrrows hrf
      rw [← hrp]
      show (if (buildMask rows).fipsA (latIdx rows r) (lonIdx rows r) = some v
        then (buildMask rows).weightsA (latIdx rows r) (lonIdx rows r) else 0)
        = 1 / (n : ℚ)
      rw [if_pos hcs.1, hcs.2]
    · rw [if_neg hmem]
      by_cases hfp : (buildMask rows).fipsA p.1 p.2 = some v
      · exfalso
        obtain ⟨r, hrrows, hrf, hlat, hlon, -⟩ := buildMask_cell_inv hd hfp
        apply hmem
        rw [hTdef, Finset.mem_image]
        refine ⟨r, List.mem_toFinset.mpr
          (List.mem_filter.mpr ⟨hrrows, by simp [hrf]⟩), ?_⟩
        show (latIdx rows r, lonIdx rows r) = p
        rw [hlat, hlon]
      · rw [if_neg hfp]
  rw [regionSum, ← Finset.sum_product']
  rw [Finset.sum_congr rfl hpt, Finset.sum_ite_mem,
    Finset.inter_eq_right.mpr hTsub, Finset.sum_const, hTcard, nsmul_eq_mul,
    mul_one_div, div_self (Nat.cast_ne_zero.mpr hn)]

theorem length_gridPoints : ∀ (lv lo : List ℚ),
    (gridPoints lv lo).length = lv.length * lo.length := by
  intro lv lo
  induction lv with
  | nil => simp [gridPoints]
  | cons la rest ih =>
    simp [gridPoints, ih, Nat.succ_mul, Nat.add_comm]

theorem getElem_gridPoints : ∀ (lv lo : List ℚ) (i j : ℕ), i < lv.length →
    j < lo.length →
    (gridPoints lv lo)[i * lo.length + j]? = some (lo[j]?.getD 0, lv[i]?.getD 0) := by
  intro lv lo i j hi hj
  induction lv generalizing i with
  | nil => cases hi
  | cons la rest ih =>
    rw [gridPoints]
    cases i with
    | zero =>
      rw [Nat.zero_mul, Nat.zero_add,
        List.getElem?_append_left (by simpa using hj)]
      simp [List.getElem?_map, List.getElem?_eq_getElem hj]
    | succ i' =>
      have hi' : i' < rest.length := by simpa using hi
      have harith : (i' + 1) * lo.length + j =
          (lo.map (fun lo2 => (lo2, la))).length + (i' * lo.length + j) := by
        simp [Nat.succ_mul]
        ring
      rw [harith, List.getElem?_append_right (Nat.le_add_right _ _), Nat.add_sub_cancel_left]
      simpa using ih i' hi'

theorem weightOf_none {counts : Ident → Option ℕ} {v : Ident}
    (h : counts v = none) : weightOf counts v = 0 := by
  simp only [weightOf, h]

theorem create_weight_mask_eq {st : GenState} {dfr : List DFRow}
    {rows : List ARow} (hgwc : st.grid_with_counties = some dfr)
    (hcol : getColumn dfr "FIPS" = .ok rows) :
    create_weight_mask st = .ok (buildMask rows) := by
  simp only [create_weight_mask, hgwc, hcol, Except.map]

/-- Concrete 2-by-2 assignment table used by witnesses: region 10 covers two
cells, region 20 one cell, and one cell is unassigned. -/
def wrowsA : List ARow :=
  [⟨0, 0, some 10⟩, ⟨0, 1, some 10⟩, ⟨1, 0, some 20⟩, ⟨1, 1, none⟩]

/-- The same table as joined DataFrame rows carrying a FIPS column. -/
def wdfrA : List DFRow :=
  [⟨0, 0, [("FIPS", some 10)]⟩, ⟨0, 1, [("FIPS", some 10)]⟩,
   ⟨1, 0, [("FIPS", some 20)]⟩, ⟨1, 1, [("FIPS", none)]⟩]

/-- A generator instance whose stored join result is the table above. -/
def wstA : GenState := ⟨"FIPS", ["FIPS"], [], none, some wdfrA⟩

/-- C1: a weight mask produced by `create_weight_mask` from a non-empty
assignment table (one row per grid point, so the (lat, lon) pairs are
pairwise distinct) gives, for every region identifier present in its region
layer, a weight-layer sum of exactly 1 over the cells carrying that
identifier — exact in rational arithmetic, hence within tolerance 1e-9 in
floating point. -/
theorem create_weight_mask_region_sums_to_one
    (st : GenState) (dfr : List DFRow) (rows : List ARow) (v : Ident)
    (hgwc : st.grid_with_counties = some dfr)
    (hcol : getColumn dfr "FIPS" = .ok rows)
    (_hne : rows ≠ [])
    (hd : distinctLL rows)
    (hp : ∃ i j, i < (buildMask rows).latAxis.length ∧
      j < (buildMask rows).lonAxis.length ∧
      (buildMask rows).fipsA i j = some v) :
    create_weight_mask st = .ok (buildMask rows) ∧
      regionSum (buildMask rows) v = 1 := by
  refine ⟨create_weight_mask_eq hgwc hcol, ?_⟩
  obtain ⟨i, j, -, -, hc⟩ := hp
  exact regionSum_buildMask hd ⟨i, j, hc⟩

/-- Witness for the C1 theorem at the concrete 2-by-2 table. -/
theorem create_weight_mask_region_sums_to_one_witness :
    create_weight_mask wstA = .ok (buildMask wrowsA) ∧
      regionSum (buildMask wrowsA) 10 = 1 :=
  create_weight_mask_region_sums_to_one wstA wdfrA wrowsA 10 rfl rfl
    (by decide) (by unfold distinctLL; decide)
    ⟨0, 0, by decide, by decide, by decide⟩

/-- C2: for every assignment table (pairwise-distinct (lat, lon) pairs),
`create_weight_mask` gives the cell of each assigned grid point the weight
exactly 1/count — count being the number of table rows referencing that
region — and the cell of each unassigned grid point weight 0 with the NaN
region sentinel; weights are never renormalized across all points. -/
theorem create_weight_mask_cell_weights
    (st : GenState) (dfr : List DFRow) (rows : List ARow)
    (hgwc : st.grid_with_counties = some dfr)
    (hcol : getColumn dfr "FIPS" = .ok rows)
    (hd : distinctLL rows) :
    create_weight_mask st = .ok (buildMask rows) ∧
    ∀ r ∈ rows,
      (∀ v, r.fips = some v →
        (buildMask rows).fipsA (latIdx rows r) (lonIdx rows r) = some v ∧
        (buildMask rows).weightsA (latIdx rows r) (lonIdx rows r)
          = 1 / (countFips rows v : ℚ)) ∧
      (r.fips = none →
        (buildMask rows).fipsA (latIdx rows r) (lonIdx rows r) = none ∧
        (buildMask rows).weightsA (latIdx rows r) (lonIdx rows r) = 0) := by
  refine ⟨create_weight_mask_eq hgwc hcol, ?_⟩
  intro r hr
  constructor
  · intro v hv
    exact buildMask_cell_some hd hr hv
  · intro hv
    exact buildMask_cell_none hd hr hv

/-- Witness for the C2 theorem at the concrete 2-by-2 table. -/
theorem create_weight_mask_cell_weights_witness :
    create_weight_mask wstA = .ok (buildMask wrowsA) ∧
    ∀ r ∈ wrowsA,
      (∀ v, r.fips = some v →
        (buildMask wrowsA).fipsA (latIdx wrowsA r) (lonIdx wrowsA r) = some v ∧
        (buildMask wrowsA).weightsA (latIdx wrowsA r) (lonIdx wrowsA r)
          = 1 / (countFips wrowsA v : ℚ)) ∧
      (r.fips = none →
        (buildMask wrowsA).fipsA (latIdx wrowsA r) (lonIdx wrowsA r) = none ∧
        (buildMask wrowsA).weightsA (latIdx wrowsA r) (lonIdx wrowsA r) = 0) :=
  create_weight_mask_cell_weights wstA wdfrA wrowsA rfl rfl
    (by unfold distinctLL; decide)

/-- Row used by the C9 witness. -/
def arow9 : ARow := ⟨0, 0, some 3⟩

/-- C9: the defensive branch of the loop (lines 126–129): a row whose region
identifier is not a key of the occurrence-count dict — structurally
impossible when the dict is derived from the same table, as
`create_weight_mask` does — still writes its cell, with weight 0 and the
identifier recorded, and the rest of the mask is built normally (the
computation is total). -/
theorem buildArrays_missing_count_weight_zero
    (counts : Ident → Option ℕ) (uLats uLons : List ℚ) (rows : List ARow)
    (r : ARow) (v : Ident)
    (hk : rows.Pairwise (keyNe uLats uLons))
    (hr : r ∈ rows) (hv : r.fips = some v) (hc : counts v = none) :
    (buildArrays counts uLats uLons rows).fipsA (idxOf r.lat uLats)
        (idxOf r.lon uLons) = some v ∧
      (buildArrays counts uLats uLons rows).weightsA (idxOf r.lat uLats)
        (idxOf r.lon uLons) = 0 := by
  have hfind : rows.find? (writesAt uLats uLons (idxOf r.lat uLats)
      (idxOf r.lon uLons)) = some r := find?_writer hk hr (by simp [hv])
  have hcell := foldl_cell counts hk
    ⟨fun _ _ => none, fun _ _ => 0⟩ (idxOf r.lat uLats) (idxOf r.lon uLons)
  constructor
  · rw [buildArrays, hcell.1, hfind]
    exact hv
  · rw [buildArrays, hcell.2, hfind]
    show rowWeight counts r = 0
    rw [rowWeight_eq hv, weightOf_none hc]

/-- Witness for the C9 theorem: a one-row table against an empty counts
dict. -/
theorem buildArrays_missing_count_weight_zero_witness :
    (buildArrays (fun _ => none) [0] [0] [arow9]).fipsA
        (idxOf arow9.lat [0]) (idxOf arow9.lon [0]) = some 3 ∧
      (buildArrays (fun _ => none) [0] [0] [arow9]).weightsA
        (idxOf arow9.lat [0]) (idxOf arow9.lon [0]) = 0 :=
  buildArrays_missing_count_weight_zero (fun _ => none) [0] [0] [arow9]
    arow9 3 (List.pairwise_singleton _ _) (by simp) rfl rfl

/-- Shapefile used by the C10 witness. -/
def wshp10 : Shapefile := ⟨["FIPS"], []⟩

/-- C10: the pipeline stages communicate through hidden instance state: on
any freshly constructed generator, after any sequence of method calls,
`assign_grid_to_county` can succeed only if some `generate_grid_points`
call occurred before it, and `create_weight_mask` can succeed only if an
`assign_grid_to_county` call occurred before it; on a fresh instance both
reads fail with `AttributeError`. -/
theorem pipeline_hidden_state
    (shp : Shapefile) (ident : String) (st0 : GenState) (cs : List Call)
    (h0 : initGen shp ident = .ok st0) :
    (isOkE (assign_grid_to_county (runCalls st0 cs)) = true →
      ∃ c ∈ cs, isGenCall c = true) ∧
    (isOkE (create_weight_mask (runCalls st0 cs)) = true →
      Call.assign ∈ cs) ∧
    isOkE (assign_grid_to_county st0) = false ∧
    isOkE (create_weight_mask st0) = false := by
  obtain ⟨hgp, hgwc⟩ := initGen_fresh h0
  refine ⟨?_, ?_, ?_, ?_⟩
  · intro hok
    by_contra hnone
    push_neg at hnone
    have hall : ∀ c ∈ cs, isGenCall c = false := by
      intro c hc
      exact Bool.not_eq_true _ ▸ (hnone c hc)
    have : (runCalls st0 cs).grid_points = none := (runCalls_gp hall).trans hgp
    rw [assign_grid_to_county, this] at hok
    cases hok
  · intro hok
    by_contra hnone
    have : (runCalls st0 cs).grid_with_counties = none :=
      (runCalls_gwc hnone).trans hgwc
    rw [create_weight_mask, this] at hok
    cases hok
  · rw [assign_grid_to_county, hgp]
    rfl
  · rw [create_weight_mask, hgwc]
    rfl

/-- Witness for the C10 theorem: a concrete construction and the empty call
sequence. -/
theorem pipeline_hidden_state_witness :
    (isOkE (assign_grid_to_county (runCalls ⟨"FIPS", ["FIPS"], [], none, none⟩
        [])) = true → ∃ c ∈ ([] : List Call), isGenCall c = true) ∧
    (isOkE (create_weight_mask (runCalls ⟨"FIPS", ["FIPS"], [], none, none⟩
        [])) = true → Call.assign ∈ ([] : List Call)) ∧
    isOkE (assign_grid_to_county ⟨"FIPS", ["FIPS"], [], none, none⟩) = false ∧
    isOkE (create_weight_mask ⟨"FIPS", ["FIPS"], [], none, none⟩) = false :=
  pipeline_hidden_state wshp10 "FIPS" ⟨"FIPS", ["FIPS"], [], none, none⟩ []
    rfl

/-- Concrete instance for C4: the configured identifier is GEOID and the
stored join result carries a GEOID column (and no FIPS column). -/
def wst4 : GenState :=
  ⟨"GEOID", ["GEOID"], [], none, some [⟨0, 0, [("GEOID", some 5)]⟩]⟩

/-- C4: contrary to the configurable-identifier contract (and to the
constructor's own docstring and validation, which key the generator on
`county_identifier`, for example GEOID), `create_weight_mask` counts and
keys the region layer by the hard-coded column name "FIPS": with identifier
GEOID and a GEOID-keyed table stored, the configured column is present yet
the call raises KeyError on FIPS. -/
theorem create_weight_mask_hardcodes_fips :
    wst4.county_identifier = "GEOID" ∧
    lookupAttr "GEOID" [("GEOID", some 5)] = some (some 5) ∧
    create_weight_mask wst4 = .error (.keyError "FIPS") :=
  ⟨rfl, rfl, rfl⟩

/-- One of the two duplicate-identifier counties used against C5. -/
def wcounty5 : County := ⟨[("FIPS", some 1)], fun _ _ => false, (0, 0, 0, 0)⟩

/-- Shapefile with two counties sharing region identifier 1. -/
def wshp5 : Shapefile := ⟨["FIPS"], [wcounty5, wcounty5]⟩

/-- C5 counterexample: both counties carry identifier 1, yet construction
succeeds — the code contains no DuplicateIdentifier failure. -/
theorem initGen_accepts_duplicate_identifiers :
    (wshp5.counties.map (fun c => lookupAttr "FIPS" c.attrs))
      = [some (some 1), some (some 1)] ∧
    isOkE (initGen wshp5 "FIPS") = true :=
  ⟨rfl, rfl⟩

/-- C5 amended: catalog construction checks only that the configured
identifier column exists; it performs no uniqueness check, so construction
succeeds or fails by column presence alone, duplicates included. -/
theorem initGen_success_iff_column_present (shp : Shapefile) (ident : String) :
    isOkE (initGen shp ident) = shp.columns.contains ident := by
  cases h : shp.columns.contains ident with
  | false =>
    have h2 : ident ∉ shp.columns := by simpa using h
    simp [initGen, validate_shapefile, isOkE, h2]
  | true =>
    have h2 : ident ∈ shp.columns := by simpa using h
    simp [initGen, validate_shapefile, isOkE, h2]

/-- Fresh generator instance used by grid-generation counterexamples. -/
def wst7 : GenState := ⟨"FIPS", ["FIPS"], [], none, none⟩

/-- C7 counterexample: zero step counts together with a negative-span
latitude range raise nothing — the call succeeds and stores an empty grid;
no InvalidGridSpec check exists in the code. -/
theorem generate_grid_points_accepts_degenerate_spec :
    generate_grid_points wst7 (some (1, 0)) (some (0, 1)) (some 0) (some 0)
      = .ok (⟨"FIPS", ["FIPS"], [], some [], none⟩, []) :=
  rfl

theorem generate_nonneg_steps_ok
    (st : GenState) (a b c d : ℚ) (latS lonS : Int)
    (hla : 0 ≤ latS) (hlo : 0 ≤ lonS) :
    generate_grid_points st (some (a, b)) (some (c, d)) (some latS)
        (some lonS)
      = .ok ({ st with grid_points := some (gridPoints
            (linspaceVals a b latS.toNat) (linspaceVals c d lonS.toNat)) },
          gridPoints (linspaceVals a b latS.toNat)
            (linspaceVals c d lonS.toNat)) := by
  simp only [generate_grid_points, Option.getD_some]
  rw [npLinspace, if_neg (not_lt.mpr hla), npLinspace, if_neg (not_lt.mpr hlo)]
  rfl

/-- C7 amended: grid generation performs no InvalidGridSpec validation.
For every latitude and longitude range — non-positive spans included — and
all non-negative step counts — zero included — it succeeds and returns the
linspace product grid; only a negative step count fails, with the
underlying NumPy ValueError rather than an InvalidGridSpec error. -/
theorem generate_grid_points_no_validation
    (st : GenState) (a b c d : ℚ) (latS lonS : Int)
    (hla : 0 ≤ latS) (hlo : 0 ≤ lonS) :
    generate_grid_points st (some (a, b)) (some (c, d)) (some latS)
        (some lonS)
      = .ok ({ st with grid_points := some (gridPoints
            (linspaceVals a b latS.toNat) (linspaceVals c d lonS.toNat)) },
          gridPoints (linspaceVals a b latS.toNat)
            (linspaceVals c d lonS.toNat)) :=
  generate_nonneg_steps_ok st a b c d latS lonS hla hlo

/-- Witness for the C7 amended theorem: a negative-span latitude range, a
zero-span longitude range, and step counts 1 and 2 all succeed. -/
theorem generate_grid_points_no_validation_witness :
    generate_grid_points wst7 (some (1, 0)) (some (2, 2)) (some 1) (some 2)
      = .ok ({ wst7 with grid_points := some (gridPoints
            (linspaceVals 1 0 (1 : Int).toNat)
            (linspaceVals 2 2 (2 : Int).toNat)) },
          gridPoints (linspaceVals 1 0 (1 : Int).toNat)
            (linspaceVals 2 2 (2 : Int).toNat)) :=
  generate_grid_points_no_validation wst7 1 0 2 2 1 2 (by decide) (by decide)

/-- C3 counterexample: with latSteps = lonSteps = 1 over ranges (0, 1), the
grid is the single point (0, 0): NumPy's single-sample linspace returns only
the range minimum, so the produced latitudes and longitudes do not include
the upper endpoints — the claim's endpoint coverage fails for step count 1,
which the claim admits by allowing L, W ≥ 1. -/
theorem generate_grid_points_steps_one_no_endpoint :
    generate_grid_points wst7 (some (0, 1)) (some (0, 1)) (some 1) (some 1)
      = .ok (⟨"FIPS", ["FIPS"], [], some [((0 : ℚ), (0 : ℚ))], none⟩,
          [((0 : ℚ), (0 : ℚ))]) ∧
    ((0 : ℚ), (0 : ℚ)).2 ≠ (1 : ℚ) ∧ ((0 : ℚ), (0 : ℚ)).1 ≠ (1 : ℚ) := by
  have h1 : linspaceVals 0 1 1 = [0] := by
    have hr : List.range 1 = [0] := rfl
    simp [linspaceVals, hr, linVal]
  refine ⟨?_, by norm_num, by norm_num⟩
  simp only [generate_grid_points, Option.getD_some]
  rw [npLinspace, if_neg (by norm_num)]
  rw [show ((1 : Int)).toNat = 1 from rfl, h1]
  rfl

/-- C3 amended: for step counts at least 2 and increasing ranges,
`generate_grid_points` returns exactly L·W points in row-major order — for
each of the L evenly spaced, strictly ascending latitudes, all W evenly
spaced, strictly ascending longitudes — and each axis includes both range
endpoints.  With a step count of 1 only the range minimum is emitted
(NumPy's single-sample linspace), so inclusive endpoint coverage holds only
from step count 2 upward. -/
theorem generate_grid_points_row_major
    (st : GenState) (a b c d : ℚ) (L W : ℕ)
    (hL : 2 ≤ L) (hW : 2 ≤ W) (hab : a < b) (hcd : c < d) :
    generate_grid_points st (some (a, b)) (some (c, d)) (some (L : Int))
        (some (W : Int))
      = .ok ({ st with grid_points := some (gridPoints (linspaceVals a b L)
            (linspaceVals c d W)) },
          gridPoints (linspaceVals a b L) (linspaceVals c d W)) ∧
    (gridPoints (linspaceVals a b L) (linspaceVals c d W)).length = L * W ∧
    (∀ i j, i < L → j < W →
      (gridPoints (linspaceVals a b L) (linspaceVals c d W))[i * W + j]?
        = some (linVal c d W j, linVal a b L i)) ∧
    linVal a b L 0 = a ∧ linVal a b L (L - 1) = b ∧
    linVal c d W 0 = c ∧ linVal c d W (W - 1) = d ∧
    (∀ i j, i < j → linVal a b L i < linVal a b L j) ∧
    (∀ i j, i < j → linVal c d W i < linVal c d W j) := by
  refine ⟨?_, ?_, ?_, linVal_zero a b L, linVal_last a b hL,
    linVal_zero c d W, linVal_last c d hW,
    fun i j hij => linVal_strictMono a b hL hab hij,
    fun i j hij => linVal_strictMono c d hW hcd hij⟩
  · have h := generate_nonneg_steps_ok st a b c d (L : Int) (W : Int)
      (Int.natCast_nonneg L) (Int.natCast_nonneg W)
    rwa [Int.toNat_natCast, Int.toNat_natCast] at h
  · rw [length_gridPoints, length_linspaceVals, length_linspaceVals]
  · intro i j hi hj
    have hi2 : i < (linspaceVals a b L).length := by
      rwa [length_linspaceVals]
    have hj2 : j < (linspaceVals c d W).length := by
      rwa [length_linspaceVals]
    have h := getElem_gridPoints (linspaceVals a b L) (linspaceVals c d W)
      i j hi2 hj2
    rw [length_linspaceVals] at h
    rw [h, getElem_linspaceVals a b L i hi, getElem_linspaceVals c d W j hj,
      Option.getD_some, Option.getD_some]

/-- Witness for the C3 amended theorem at a 2-by-2 grid over unit ranges. -/
theorem generate_grid_points_row_major_witness :
    generate_grid_points wst7 (some (0, 1)) (some (0, 1)) (some ((2 : ℕ) : Int))
        (some ((2 : ℕ) : Int))
      = .ok ({ wst7 with grid_points := some (gridPoints (linspaceVals 0 1 2)
            (linspaceVals 0 1 2)) },
          gridPoints (linspaceVals 0 1 2) (linspaceVals 0 1 2)) ∧
    (gridPoints (linspaceVals 0 1 2) (linspaceVals 0 1 2)).length = 2 * 2 ∧
    (∀ i j, i < 2 → j < 2 →
      (gridPoints (linspaceVals 0 1 2) (linspaceVals 0 1 2))[i * 2 + j]?
        = some (linVal 0 1 2 j, linVal 0 1 2 i)) ∧
    linVal 0 1 2 0 = 0 ∧ linVal 0 1 2 (2 - 1) = 1 ∧
    linVal 0 1 2 0 = 0 ∧ linVal 0 1 2 (2 - 1) = 1 ∧
    (∀ i j, i < j → linVal 0 1 2 i < linVal 0 1 2 j) ∧
    (∀ i j, i < j → linVal 0 1 2 i < linVal 0 1 2 j) :=
  generate_grid_points_row_major wst7 0 1 0 1 2 2 (by decide) (by decide)
    (by decide) (by decide)

/-- Assignment table for the C6 counterexample: latitude 1 appears before
latitude 0, as in a grid generated from a descending latitude range. -/
def wrows6 : List ARow := [⟨1, 0, some 7⟩, ⟨0, 0, some 8⟩]

/-- The C6 counterexample table as joined DataFrame rows. -/
def wdfr6 : List DFRow :=
  [⟨1, 0, [("FIPS", some 7)]⟩, ⟨0, 0, [("FIPS", some 8)]⟩]

/-- Generator instance whose stored join result is the C6 table. -/
def wst6 : GenState := ⟨"FIPS", ["FIPS"], [], none, some wdfr6⟩

/-- C6 counterexample: the row for grid point (lat 1, lon 0) carries region
7, but the emitted mask holds region 8 at the position of latitude 1 in the
sorted latitude axis (index 1) and of longitude 0 in the sorted longitude
axis (index 0): the data layers are indexed by appearance order while the
coordinates are sorted, so the claimed co-indexing fails on this table. -/
theorem create_weight_mask_not_sorted_coindexed :
    create_weight_mask wst6 = .ok (buildMask wrows6) ∧
    wrows6[0]? = some ⟨1, 0, some 7⟩ ∧
    (buildMask wrows6).latAxis = [0, 1] ∧
    (buildMask wrows6).lonAxis = [0] ∧
    idxOf 1 (buildMask wrows6).latAxis = 1 ∧
    idxOf 0 (buildMask wrows6).lonAxis = 0 ∧
    (buildMask wrows6).fipsA 1 0 = some 8 ∧
    some (8 : Ident) ≠ some 7 :=
  ⟨rfl, rfl, by decide, by decide, by decide, by decide, by decide, by decide⟩

/-- C6 amended: the two data layers are indexed by the appearance-order
unique axes; when the table's unique latitudes and longitudes appear in
strictly ascending order — as for grids generated from ascending ranges —
those axes coincide with the sorted coordinate axes, and every grid point's
region value sits at the position of its latitude and longitude in the
sorted axes. -/
theorem create_weight_mask_coindexed_when_ascending
    (st : GenState) (dfr : List DFRow) (rows : List ARow)
    (hgwc : st.grid_with_counties = some dfr)
    (hcol : getColumn dfr "FIPS" = .ok rows)
    (hd : distinctLL rows)
    (hlat : List.Pairwise (· < ·) (uLatsOf rows))
    (hlon : List.Pairwise (· < ·) (uLonsOf rows)) :
    create_weight_mask st = .ok (buildMask rows) ∧
    (buildMask rows).latAxis = uLatsOf rows ∧
    (buildMask rows).lonAxis = uLonsOf rows ∧
    ∀ r ∈ rows,
      (buildMask rows).fipsA (idxOf r.lat (buildMask rows).latAxis)
        (idxOf r.lon (buildMask rows).lonAxis) = r.fips := by
  have hlat2 : (buildMask rows).latAxis = uLatsOf rows :=
    List.Sorted.insertionSort_eq (hlat.imp le_of_lt)
  have hlon2 : (buildMask rows).lonAxis = uLonsOf rows :=
    List.Sorted.insertionSort_eq (hlon.imp le_of_lt)
  refine ⟨create_weight_mask_eq hgwc hcol, hlat2, hlon2, ?_⟩
  intro r hr
  rw [hlat2, hlon2]
  show (buildMask rows).fipsA (latIdx rows r) (lonIdx rows r) = r.fips
  cases hv : r.fips with
  | none => exact (buildMask_cell_none hd hr hv).1
  | some v => exact (buildMask_cell_some hd hr hv).1

/-- Witness for the C6 amended theorem at the ascending 2-by-2 table. -/
theorem create_weight_mask_coindexed_when_ascending_witness :
    create_weight_mask wstA = .ok (buildMask wrowsA) ∧
    (buildMask wrowsA).latAxis = uLatsOf wrowsA ∧
    (buildMask wrowsA).lonAxis = uLonsOf wrowsA ∧
    ∀ r ∈ wrowsA,
      (buildMask wrowsA).fipsA (idxOf r.lat (buildMask wrowsA).latAxis)
        (idxOf r.lon (buildMask wrowsA).lonAxis) = r.fips :=
  create_weight_mask_coindexed_when_ascending wstA wdfrA wrowsA rfl rfl
    (by unfold distinctLL; decide) (by decide) (by decide)

/-- Assignment table for C8: three rows over a 2-by-2 axis grid. -/
def wrows8 : List ARow := [⟨0, 0, some 1⟩, ⟨0, 1, some 1⟩, ⟨1, 0, some 1⟩]

/-- The C8 table as joined DataFrame rows. -/
def wdfr8 : List DFRow :=
  [⟨0, 0, [("FIPS", some 1)]⟩, ⟨0, 1, [("FIPS", some 1)]⟩,
   ⟨1, 0, [("FIPS", some 1)]⟩]

/-- Generator instance whose stored join result is the C8 table. -/
def wst8 : GenState := ⟨"FIPS", ["FIPS"], [], none, some wdfr8⟩

/-- C8 counterexample: a 3-row table whose unique-axis cardinalities are 2
and 2 (so 2 × 2 = 4 does not match the 3 assignments) is accepted without
any error: no InvalidGridShape check exists in the code. -/
theorem create_weight_mask_accepts_shape_mismatch :
    wrows8.length = 3 ∧
    (buildMask wrows8).latAxis.length = 2 ∧
    (buildMask wrows8).lonAxis.length = 2 ∧
    (2 : ℕ) * 2 ≠ 3 ∧
    create_weight_mask wst8 = .ok (buildMask wrows8) :=
  ⟨rfl, by decide, by decide, by decide, rfl⟩

/-- C8 amended: the builder performs no axis-cardinality check: whenever
the stored join result is present and its FIPS column extraction succeeds,
`create_weight_mask` succeeds, emitting a mask shaped by the unique-axis
lengths regardless of whether their product matches the assignment count. -/
theorem create_weight_mask_no_shape_check
    (st : GenState) (dfr : List DFRow) (rows : List ARow)
    (hgwc : st.grid_with_counties = some dfr)
    (hcol : getColumn dfr "FIPS" = .ok rows) :
    create_weight_mask st = .ok (buildMask rows) ∧
    (buildMask rows).latAxis.length = (uLatsOf rows).length ∧
    (buildMask rows).lonAxis.length = (uLonsOf rows).length :=
  ⟨create_weight_mask_eq hgwc hcol, length_sortQ _, length_sortQ _⟩

/-- Witness for the C8 amended theorem at the 3-row table. -/
theorem create_weight_mask_no_shape_check_witness :
    create_weight_mask wst8 = .ok (buildMask wrows8) ∧
    (buildMask wrows8).latAxis.length = (uLatsOf wrows8).length ∧
    (buildMask wrows8).lonAxis.length = (uLonsOf wrows8).length :=
  create_weight_mask_no_shape_check wst8 wdfr8 wrows8 rfl rfl

end CMG
